import Mathlib

/-!
Shallow embedding of the MPT-circuit constraint helpers
(`zkevm-circuits/src/mpt_circuit/helpers.rs`) and the extension-node
modification gadget (`zkevm-circuits/src/mpt_circuit/mod_extension.rs`).

Circuit `Expression<F>`s are modelled as values of a field `F` (the source is
generic over `F: FieldExt`): a polynomial identity between expressions holds in
the circuit exactly when it holds for every assignment of field values to the
queried cells, so each queried cell becomes a function argument or a structure
field.  `usize` values that enter expressions as constants are kept as `Nat`
and cast into `F`.
-/

namespace MptCircuit

variable {F : Type} [Field F]

/-- Tags of the fixed lookup table (`FixedTableTag` in the source).  The
numeric discriminants of the Rust enum live outside `src/`, so the tag is kept
symbolic as a constructor. -/
inductive FixedTableTag where
  | RangeKeyLen256
  | RMult
  | ExtOddKey
  deriving DecidableEq, Repr

/-- `into_words_expr` (helpers.rs, lines 18-31): turns 32 hash byte cells into
4 keccak-word expressions, word `i` being `Σ_{j<8} hash[i*8+j] * 256^j`.
Rust `Vec` indexing `hash[i * 8 + j]` panics when the input has fewer than 32
elements (the accessed indices are exactly `0..31`); the panic is modelled by
the `none` branch.  Under the guard every accessed index satisfies
`i*8+j < 32 ≤ hash.length`, so the `getD` default value is never used. -/
def into_words_expr (hash : List F) : Option (List F) :=
  if 32 ≤ hash.length then
    some ((List.range 4).map fun i =>
      ((List.range 8).foldl
        (fun (we : F × F) j => (we.1 + hash.getD (i * 8 + j) 0 * we.2, we.2 * 256))
        ((0 : F), (1 : F))).1)
  else
    none

/-- Loop body of `compute_rlc` (helpers.rs, lines 33-59).  The Rust loop walks
the advice columns keeping the mutable state `(rind, r_wrapped, rlc)`:
each signal contributes `s * power_of_randomness[rind] * mult`, with an extra
factor `power_of_randomness[POWER_OF_RANDOMNESS_LEN - 1]` once `rind` has
wrapped; after each step `rind` increments, wrapping to `0` (and setting
`r_wrapped`) when it reaches `POWER_OF_RANDOMNESS_LEN - 1`.
`W` stands for `POWER_OF_RANDOMNESS_LEN`, whose defining module `param.rs` is
outside `src/`, so it is kept as a parameter. -/
def compute_rlc_go (W : Nat) (power_of_randomness : List F) (mult : F) :
    List F → Nat → Bool → F → F
  | [], _, _, rlc => rlc
  | s :: rest, rind, r_wrapped, rlc =>
    let term :=
      if r_wrapped then
        s * power_of_randomness.getD rind 0 *
          power_of_randomness.getD (W - 1) 0 * mult
      else
        s * power_of_randomness.getD rind 0 * mult
    if rind = W - 1 then
      compute_rlc_go W power_of_randomness mult rest 0 true (rlc + term)
    else
      compute_rlc_go W power_of_randomness mult rest (rind + 1) r_wrapped (rlc + term)

/-- `compute_rlc` (helpers.rs, lines 33-59): the queried advice cells become
the list `advices`, the starting window index is `rind` and `mult` is the
external multiplier. -/
def compute_rlc (W : Nat) (advices : List F) (rind : Nat) (mult : F)
    (power_of_randomness : List F) : F :=
  compute_rlc_go W power_of_randomness mult advices rind false 0

/-- The closed-form sum `Σ signal_i * r^(start+i) * multiplier` that the spec
asserts `compute_rlc` computes (spec, section 4.1).  Stated from the spec's
words, to be compared with `compute_rlc`. -/
def rlc_closed_form (signals : List F) (start : Nat) (mult r : F) : F :=
  match signals with
  | [] => 0
  | s :: rest => s * r ^ start * mult + rlc_closed_form rest (start + 1) mult r

/-- One registered `key_len_lookup` query (helpers.rs, lines 102-130): the
pair of a fixed-table tag column value and the queried second component. -/
structure FixedLookup (F : Type) where
  tag : FixedTableTag
  value : F

/-- `key_len_lookup` (helpers.rs, lines 102-130): registers a single lookup
whose tuple is the `RangeKeyLen256` tag together with
`q_enable * s * (key_len - len_offset - ind)`, where `s` is the looked-at
byte column value and `key_len` the key-length column value. -/
def key_len_lookup (q_enable s key_len : F) (ind len_offset : Nat) : FixedLookup F :=
  let key_len_adj := key_len - (len_offset : F)
  let key_len_rem := key_len_adj - (ind : F)
  ⟨FixedTableTag.RangeKeyLen256, q_enable * s * key_len_rem⟩

/-- Selector `one_rlp_byte = s1 * s2` from `get_branch_len`
(helpers.rs, line 270). -/
def one_rlp_byte (s1 s2 : F) : F := s1 * s2

/-- Selector `two_rlp_bytes = s1 * (1 - s2)` from `get_branch_len`
(helpers.rs, line 271). -/
def two_rlp_bytes (s1 s2 : F) : F := s1 * (1 - s2)

/-- Selector `three_rlp_bytes = (1 - s1) * s2` from `get_branch_len`
(helpers.rs, line 272). -/
def three_rlp_bytes (s1 s2 : F) : F := (1 - s1) * s2

/-- `get_branch_len` (helpers.rs, lines 254-302): the returned declared-length
expression.  `s1`, `s2` are the two RLP header flag cells and `rlp_byte0`,
`rlp_byte1`, `rlp_byte2` the three header byte cells (which cells are queried
depends on `is_s`, but the formula is identical for both sides). -/
def get_branch_len (s1 s2 rlp_byte0 rlp_byte1 rlp_byte2 : F) : F :=
  one_rlp_byte s1 s2 * (rlp_byte0 - 192 + 1)
    + two_rlp_bytes s1 s2 * (rlp_byte1 + 1 + 1)
    + three_rlp_bytes s1 s2 * (rlp_byte1 * 256 + rlp_byte2 + 1 + 1 + 1)

/-- The parity derivation and assertions of `ModExtensionGadget::assign`
(mod_extension.rs, lines 248-259), per variant, as a function of the first key
byte: `is_key_part_odd := (first_key_byte >> 4 == 1)`; if odd, assert
`first_key_byte < 0b10_0000`, otherwise assert `first_key_byte == 0`.
`some b` models a successful assignment of `is_key_part_odd = b`; `none`
models the assertion failure aborting witness generation. -/
def mod_ext_first_key_byte_parity (first_key_byte : Nat) : Option Bool :=
  let is_key_part_odd := first_key_byte >>> 4 == 1
  if is_key_part_odd then
    if first_key_byte < 32 then some is_key_part_odd else none
  else
    if first_key_byte = 0 then some is_key_part_odd else none

/-- Modelled from the spec: `LtGadget` (from `circuit_tools`, outside `src/`)
is described as "a strict-less-than comparator"; its output expression is `1`
exactly when `lhs < rhs` and `0` otherwise. -/
def ltGadgetExpr (F : Type) [Field F] (lhs rhs : Nat) : F :=
  if lhs < rhs then 1 else 0

/-- Modelled from the spec: `HASH_WIDTH` is defined in `param.rs` (outside
`src/`); the spec fixes the hash threshold at 32. -/
def HASH_WIDTH : Nat := 32

/-- `is_not_hashed` wiring of `ModExtensionGadget::configure`
(mod_extension.rs, lines 135-139): `LtGadget::construct` applied to the
variant's declared RLP list byte length and `HASH_WIDTH`. -/
def modext_is_not_hashed (F : Type) [Field F] (rlp_list_num_bytes : Nat) : F :=
  ltGadgetExpr F rlp_list_num_bytes HASH_WIDTH

/-- `ParentData` (external input of `ModExtensionGadget::configure`): the
fields read by the gadget, as field values. -/
structure ParentData (F : Type) where
  hash_lo : F
  hash_hi : F
  drifted_parent_hash_lo : F
  drifted_parent_hash_hi : F
  rlc : F
  is_placeholder : F
  is_root : F

/-- `KeyData` (external input of `ModExtensionGadget::configure`): the fields
read by the gadget, as field values. -/
structure KeyData (F : Type) where
  rlc : F
  mult : F
  is_odd : F
  drifted_rlc : F

/-- The cell values entering the constraints of
`ModExtensionGadget::configure` (mod_extension.rs, lines 33-215).  Values
produced by external gadgets (`ListKeyGadget`, `rlp_item`, `LtGadget`,
`ext_key_rlc_expr`) are abstract field values here: the constraints of this
gadget treat them as opaque sub-expressions. -/
structure ModExtInputs (F : Type) where
  parent_data : Fin 2 → ParentData F
  key_data : Fin 2 → KeyData F
  /-- `node_rlc_s`: the long (index 0) variant's list RLC chained with its
  value item (`rlp_key[0].rlc2 ... rlc_chain_rev ...`, external gadgets). -/
  node_rlc_s : F
  /-- `node_rlc_c`: the short (index 1) variant's chained RLC. -/
  node_rlc_c : F
  /-- Value of `ext_key_rlc_expr` for the long variant (external helper). -/
  ext_key_rlc_long : F
  /-- Value of `ext_key_rlc_expr` for the short variant (external helper). -/
  ext_key_rlc_short : F
  /-- `rlp_key[i].rlp_list.len()` per variant. -/
  rlp_list_len : Fin 2 → F
  /-- `rlp_key[i].key_value.num_bytes()` per variant. -/
  key_value_num_bytes : Fin 2 → F
  /-- `rlp_value[i].num_bytes()` per variant. -/
  value_num_bytes : Fin 2 → F
  /-- `rlp_key[i].rlp_list.num_bytes()` per variant. -/
  rlp_list_num_bytes : Fin 2 → F
  /-- Output cell of the variant's `LtGadget` `is_not_hashed`. -/
  is_not_hashed : Fin 2 → F
  /-- The queried cell `is_key_part_odd[i]`. -/
  is_key_part_odd : Fin 2 → F
  /-- The `first_byte` expression selected by the `matchx!` over the key
  item's RLP class. -/
  first_byte : Fin 2 → F

/-- `is_insert := parent_data[0].is_placeholder`
(mod_extension.rs, line 86). -/
def is_insert (inp : ModExtInputs F) : F := (inp.parent_data 0).is_placeholder

/-- `lo_s` blend (mod_extension.rs, line 88). -/
def lo_s (inp : ModExtInputs F) : F :=
  is_insert inp * (inp.parent_data 0).hash_lo
    + (1 - is_insert inp) * (inp.parent_data 1).hash_lo

/-- `hi_s` blend (mod_extension.rs, line 89). -/
def hi_s (inp : ModExtInputs F) : F :=
  is_insert inp * (inp.parent_data 0).hash_hi
    + (1 - is_insert inp) * (inp.parent_data 1).hash_hi

/-- `lo_c` blend (mod_extension.rs, line 90). -/
def lo_c (inp : ModExtInputs F) : F :=
  is_insert inp * (inp.parent_data 0).drifted_parent_hash_lo
    + (1 - is_insert inp) * (inp.parent_data 1).drifted_parent_hash_lo

/-- `hi_c` blend (mod_extension.rs, line 91). -/
def hi_c (inp : ModExtInputs F) : F :=
  is_insert inp * (inp.parent_data 0).drifted_parent_hash_hi
    + (1 - is_insert inp) * (inp.parent_data 1).drifted_parent_hash_hi

/-- `parent_data_lo = vec![lo_s, lo_c]` (mod_extension.rs, line 92). -/
def parent_data_lo (inp : ModExtInputs F) : Fin 2 → F := ![lo_s inp, lo_c inp]

/-- `parent_data_hi = vec![hi_s, hi_c]` (mod_extension.rs, line 93). -/
def parent_data_hi (inp : ModExtInputs F) : Fin 2 → F := ![hi_s inp, hi_c inp]

/-- `parent_data_rlc` blend (mod_extension.rs, line 94). -/
def parent_data_rlc (inp : ModExtInputs F) : F :=
  is_insert inp * (inp.parent_data 0).rlc
    + (1 - is_insert inp) * (inp.parent_data 1).rlc

/-- `key_rlc_before` blend (mod_extension.rs, line 96). -/
def key_rlc_before (inp : ModExtInputs F) : F :=
  (inp.key_data 0).rlc * is_insert inp
    + (1 - is_insert inp) * (inp.key_data 1).rlc

/-- `key_mult_before` blend (mod_extension.rs, line 97). -/
def key_mult_before (inp : ModExtInputs F) : F :=
  (inp.key_data 0).mult * is_insert inp
    + (1 - is_insert inp) * (inp.key_data 1).mult

/-- `middle_key_rlc` blend (mod_extension.rs, line 100). -/
def middle_key_rlc (inp : ModExtInputs F) : F :=
  (inp.key_data 1).drifted_rlc * is_insert inp
    + (1 - is_insert inp) * (inp.key_data 0).drifted_rlc

/-- `node_rlc = vec![node_rlc_s, node_rlc_c]` (mod_extension.rs, line 116). -/
def node_rlc (inp : ModExtInputs F) : Fin 2 → F := ![inp.node_rlc_s, inp.node_rlc_c]

/-- `is_short_not_branch = node_rlc_s - node_rlc_c`
(mod_extension.rs, line 118). -/
def is_short_not_branch (inp : ModExtInputs F) : F :=
  inp.node_rlc_s - inp.node_rlc_c

/-- `nibbles_rlc_long = key_rlc_before + ext_key_rlc_expr(..)` for the long
variant (mod_extension.rs, lines 174-188). -/
def nibbles_rlc_long (inp : ModExtInputs F) : F :=
  key_rlc_before inp + inp.ext_key_rlc_long

/-- `rlc_after_short = middle_key_rlc + ext_key_rlc_expr(..)` for the short
variant (mod_extension.rs, lines 192-205). -/
def rlc_after_short (inp : ModExtInputs F) : F :=
  middle_key_rlc inp + inp.ext_key_rlc_short

/-- Modelled from the spec: `not!` of the external constraint-builder macro
library, the boolean complement expression `1 - a`. -/
def notExpr (a : F) : F := 1 - a

/-- Modelled from the spec: `or::expr` of the external gadget utilities for
two inputs, `1 - (1 - a) * (1 - b)`. -/
def orExpr (a b : F) : F := 1 - (1 - a) * (1 - b)

/-- Identifier of the lookup table a registered lookup targets. -/
inductive LookupTable where
  | keccak
  | fixedExtOddKey
  deriving DecidableEq, Repr

/-- One registered constraint of the gadget.  `eq cond lhs rhs` models a
`require!(lhs => rhs)` under the accumulated `ifx!` condition `cond`
(the polynomial identity `cond * (lhs - rhs) = 0`); `lookup cond t tuple`
models a `require!(tuple => @table)` under condition `cond`. -/
inductive Constraint (F : Type) where
  | eq (cond lhs rhs : F)
  | lookup (cond : F) (table : LookupTable) (tuple : List F)
  deriving DecidableEq

/-- Modelled from the spec: satisfaction of a registered constraint under a
witness assignment, for given table contents.  A conditioned equality holds as
the polynomial identity `cond * (lhs - rhs) = 0`; a conditioned lookup is
satisfiable either because the condition vanishes (the scaled tuple becomes
the disabled all-zero row) or because the tuple is literally a table row
(spec, section 3: "Lookup constraints are satisfiable only if the queried
tuple is literally present in the table"). -/
def Constraint.sat (keccak_table fixed_table : List (List F)) :
    Constraint F → Prop
  | .eq cond lhs rhs => cond * (lhs - rhs) = 0
  | .lookup cond t tuple =>
    cond = 0 ∨ tuple ∈ (match t with
      | .keccak => keccak_table
      | .fixedExtOddKey => fixed_table)

instance (keccak_table fixed_table : List (List F)) [DecidableEq F]
    (c : Constraint F) :
    Decidable (Constraint.sat keccak_table fixed_table c) :=
  match c with
  | .eq cond lhs rhs => inferInstanceAs (Decidable (cond * (lhs - rhs) = 0))
  | .lookup _ _ _ => inferInstanceAs (Decidable (_ ∨ _))

/-- The keccak-table tuple required for variant `i`
(mod_extension.rs, lines 151 and 160):
`(1, node_rlc[i], num_bytes[i], parent_data_lo[i], parent_data_hi[i])`. -/
def keccak_tuple (inp : ModExtInputs F) (i : Fin 2) : List F :=
  [1, node_rlc inp i, inp.rlp_list_num_bytes i,
    parent_data_lo inp i, parent_data_hi inp i]

/-- The anchoring constraints registered for variant `i`
(mod_extension.rs, lines 148-170).  Under `ifx!{is_short_not_branch => ..}`
both variants get the keccak / inline-RLC pair guarded by
`or(is_root, not(is_not_hashed))`; in the `elsex` branch only the long
variant (`is_s`, index 0) gets the analogous pair, while for the short
variant the code only computes `branch_rlp_rlc` and leaves the requirement
commented out (`// TODO`), registering nothing. -/
def anchoring_constraints (inp : ModExtInputs F) (i : Fin 2) :
    List (Constraint F) :=
  let c2 := orExpr (inp.parent_data i).is_root (notExpr (inp.is_not_hashed i))
  [Constraint.lookup (is_short_not_branch inp * c2) LookupTable.keccak
      (keccak_tuple inp i),
    Constraint.eq (is_short_not_branch inp * (1 - c2)) (node_rlc inp i)
      (parent_data_rlc inp)]
  ++ (if i = 0 then
        [Constraint.lookup ((1 - is_short_not_branch inp) * c2)
            LookupTable.keccak (keccak_tuple inp i),
          Constraint.eq ((1 - is_short_not_branch inp) * (1 - c2))
            (node_rlc inp i) (parent_data_rlc inp)]
      else [])

/-- The final nibble-continuity requirement
(mod_extension.rs, lines 207-211):
`ifx!{is_short_not_branch => { require!(rlc_after_short => nibbles_rlc_long) }}`
(the `elsex` branch is an empty `// TODO`). -/
def continuity_constraint (inp : ModExtInputs F) : Constraint F :=
  Constraint.eq (is_short_not_branch inp) (rlc_after_short inp)
    (nibbles_rlc_long inp)

/-- The per-variant constraints of the `for is_s in [true, false]` loop
(mod_extension.rs, lines 120-171): the `ExtOddKey` fixed lookup classifying
the first key byte, the RLP length-consistency requirement
`rlp_list.len() == key_value.num_bytes() + rlp_value.num_bytes()`, and the
anchoring constraints. -/
def variant_constraints (inp : ModExtInputs F) (i : Fin 2) :
    List (Constraint F) :=
  [Constraint.lookup 1 LookupTable.fixedExtOddKey
      [inp.first_byte i, inp.is_key_part_odd i],
    Constraint.eq 1 (inp.rlp_list_len i)
      (inp.key_value_num_bytes i + inp.value_num_bytes i)]
  ++ anchoring_constraints inp i

/-- All constraints registered by `ModExtensionGadget::configure`
(mod_extension.rs, lines 33-215) that are expressed over this gadget's own
cells (the sub-gadget-internal constraints of `ListKeyGadget` and `LtGadget`
live outside `src/` and stay abstract). -/
def mod_extension_constraints (inp : ModExtInputs F) : List (Constraint F) :=
  variant_constraints inp 0 ++ variant_constraints inp 1
    ++ [continuity_constraint inp]

instance fact_prime_101 : Fact (Nat.Prime 101) := ⟨by norm_num⟩

/-- Concrete witness inputs over `ZMod 101` for which the two variants' node
RLCs differ and every registered constraint is satisfied. -/
def c1WitnessInputs : ModExtInputs (ZMod 101) where
  parent_data := fun _ =>
    { hash_lo := 0, hash_hi := 0, drifted_parent_hash_lo := 0,
      drifted_parent_hash_hi := 0, rlc := 0, is_placeholder := 0,
      is_root := 1 }
  key_data := fun _ => { rlc := 0, mult := 0, is_odd := 0, drifted_rlc := 0 }
  node_rlc_s := 1
  node_rlc_c := 0
  ext_key_rlc_long := 0
  ext_key_rlc_short := 0
  rlp_list_len := fun _ => 0
  key_value_num_bytes := fun _ => 0
  value_num_bytes := fun _ => 0
  rlp_list_num_bytes := fun _ => 0
  is_not_hashed := fun _ => 1
  is_key_part_odd := fun _ => 0
  first_byte := fun _ => 0

/-- Concrete witness inputs over `ZMod 101` in which the two variants' node
RLCs coincide (the short variant degenerates to a plain branch). -/
def c3WitnessInputs : ModExtInputs (ZMod 101) where
  parent_data := fun _ =>
    { hash_lo := 0, hash_hi := 0, drifted_parent_hash_lo := 0,
      drifted_parent_hash_hi := 0, rlc := 3, is_placeholder := 0,
      is_root := 0 }
  key_data := fun _ => { rlc := 0, mult := 0, is_odd := 0, drifted_rlc := 0 }
  node_rlc_s := 5
  node_rlc_c := 5
  ext_key_rlc_long := 0
  ext_key_rlc_short := 0
  rlp_list_len := fun _ => 0
  key_value_num_bytes := fun _ => 0
  value_num_bytes := fun _ => 0
  rlp_list_num_bytes := fun _ => 0
  is_not_hashed := fun _ => 0
  is_key_part_odd := fun _ => 0
  first_byte := fun _ => 0

/-! ## Helper lemmas -/

lemma range_map_pow_getD (W rind : Nat) (r : F) (hr : rind < W) :
    ((List.range W).map (r ^ ·)).getD rind 0 = r ^ rind := by
  simp [List.getD_eq_getElem?_getD, List.getElem?_map, List.getElem?_range hr]

lemma range_map_pow_elem (W rind : Nat) (r : F) (hr : rind < W) :
    (Option.map (fun x => r ^ x) (List.range W)[rind]?).getD 0 = r ^ rind := by
  simp [List.getElem?_range hr]

lemma compute_rlc_go_no_wrap (W : Nat) (r mult : F) :
    ∀ (signals : List F) (rind : Nat) (rlc : F),
      rind + signals.length ≤ W →
      compute_rlc_go W ((List.range W).map (r ^ ·)) mult signals rind false rlc
        = rlc + rlc_closed_form signals rind mult r := by
  intro signals
  induction signals with
  | nil => intro rind rlc _; simp [compute_rlc_go, rlc_closed_form]
  | cons s rest ih =>
    intro rind rlc h
    have hr : rind < W := by simp at h; omega
    by_cases hw : rind = W - 1
    · have hrest : rest = [] := by
        cases rest with
        | nil => rfl
        | cons a t => exfalso; simp at h; omega
      subst hrest
      have hg : (Option.map (fun x => r ^ x) (List.range W)[W - 1]?).getD 0
          = r ^ (W - 1) := range_map_pow_elem W (W - 1) r (by omega)
      simp [compute_rlc_go, hw, rlc_closed_form, hg]
      try ring
    · have hstep : rind + 1 + rest.length ≤ W := by simp at h; omega
      have hg : (Option.map (fun x => r ^ x) (List.range W)[rind]?).getD 0
          = r ^ rind := range_map_pow_elem W rind r hr
      simp only [compute_rlc_go]
      rw [if_neg hw]
      rw [ih (rind + 1) _ hstep]
      simp [rlc_closed_form, hg]
      try ring

/-! ## Claim theorems -/

/-- C2 (counterexample): `compute_rlc` does not equal the closed-form sum
once the window index wraps.  With window size `W = 3`, powers
`r^0, r^1, r^2` for `r = 2`, the input `[0, 0, 0, 1]` of length `W + 1`,
start index `0` and multiplier `1`, the code yields
`1 * r^0 * r^(W-1) = 4` while the closed form is `r^3 = 8`. -/
theorem compute_rlc_wraparound_counterexample :
    compute_rlc 3 [0, 0, 0, 1] 0 1 ((List.range 3).map ((2 : ZMod 101) ^ ·))
      ≠ rlc_closed_form [0, 0, 0, 1] 0 1 (2 : ZMod 101) := by
  decide

/-- C2 (amended): with the precomputed power table `r^0 .. r^(W-1)`,
`compute_rlc` equals the closed-form sum `Σ signal_i * r^(start+i) * mult`
exactly on the no-wraparound range: whenever `start + length ≤ W`.  (Past the
window, a wrapped term at running index `start + i` carries the factor
`r^((start+i) mod-window) * r^(W-1)` instead of `r^(start+i)`, so the
wraparound does not continue the geometric series.) -/
theorem compute_rlc_no_wrap_closed_form (W : Nat) (r mult : F)
    (signals : List F) (rind : Nat) (h : rind + signals.length ≤ W) :
    compute_rlc W signals rind mult ((List.range W).map (r ^ ·))
      = rlc_closed_form signals rind mult r := by
  have hgo := compute_rlc_go_no_wrap W r mult signals rind 0 h
  simpa [compute_rlc] using hgo

/-- Witness for `compute_rlc_no_wrap_closed_form` at `W = 3`, `r = 2`,
signals `[4, 5, 6]`. -/
theorem compute_rlc_no_wrap_witness :
    compute_rlc 3 [4, 5, 6] 0 1 ((List.range 3).map ((2 : ZMod 101) ^ ·))
      = rlc_closed_form [4, 5, 6] 0 1 (2 : ZMod 101) :=
  compute_rlc_no_wrap_closed_form 3 2 1 [4, 5, 6] 0 (by decide)

/-- C4: `get_branch_len` is the sum of the three selector-weighted forms,
and for boolean flag values selecting exactly one form it returns that form's
declared length: `(s1, s2) = (1, 1)` gives `byte0 - 192 + 1`, `(1, 0)` gives
`byte1 + 2`, `(0, 1)` gives `byte1 * 256 + byte2 + 3`. -/
theorem get_branch_len_form_selection (s1 s2 b0 b1 b2 : F) :
    get_branch_len s1 s2 b0 b1 b2
        = one_rlp_byte s1 s2 * (b0 - 192 + 1)
          + two_rlp_bytes s1 s2 * (b1 + 2)
          + three_rlp_bytes s1 s2 * (b1 * 256 + b2 + 3)
    ∧ get_branch_len 1 1 b0 b1 b2 = b0 - 192 + 1
    ∧ get_branch_len 1 0 b0 b1 b2 = b1 + 2
    ∧ get_branch_len 0 1 b0 b1 b2 = b1 * 256 + b2 + 3 := by
  refine ⟨?_, ?_, ?_, ?_⟩ <;>
    simp [get_branch_len, one_rlp_byte, two_rlp_bytes, three_rlp_bytes] <;>
      ring

/-- Witness for `get_branch_len_form_selection` at concrete byte values. -/
theorem get_branch_len_form_selection_witness :
    get_branch_len (3 : ZMod 101) 5 7 11 13
        = one_rlp_byte (3 : ZMod 101) 5 * (7 - 192 + 1)
          + two_rlp_bytes (3 : ZMod 101) 5 * (11 + 2)
          + three_rlp_bytes (3 : ZMod 101) 5 * (11 * 256 + 13 + 3)
    ∧ get_branch_len (1 : ZMod 101) 1 7 11 13 = 7 - 192 + 1
    ∧ get_branch_len (1 : ZMod 101) 0 7 11 13 = 11 + 2
    ∧ get_branch_len (0 : ZMod 101) 1 7 11 13 = 11 * 256 + 13 + 3 :=
  get_branch_len_form_selection 3 5 7 11 13

/-- C5 (counterexample): flag values `rlp1 = 0, rlp2 = 1` do not select the
two-byte form; they select the three-byte form, so with `byte1 = 10`
(and the remaining header bytes `0`) the declared length is
`10 * 256 + 0 + 3 = 2563`, not `13`. -/
theorem get_branch_len_two_byte_vector_false :
    get_branch_len (0 : ℚ) 1 0 10 0 ≠ 13 := by
  norm_num [get_branch_len, one_rlp_byte, two_rlp_bytes, three_rlp_bytes]

/-- C5 (amended): `get_branch_len` satisfies the three test vectors with
the two-byte-form vector corrected: header byte `0xC5 = 197` in the
one-byte form (`s1 = s2 = 1`) gives `6`; the two-byte form is selected by
`rlp1 = 1, rlp2 = 0` and `byte1 = 10` gives `10 + 2 = 12`; the three-byte
form (`rlp1 = 0, rlp2 = 1`) with `byte1 = 1, byte2 = 44` gives
`1 * 256 + 44 + 3 = 303`. -/
theorem get_branch_len_test_vectors (b0 b1 b2 : F) :
    get_branch_len (1 : F) 1 197 b1 b2 = 6
    ∧ get_branch_len (1 : F) 0 b0 10 b2 = 12
    ∧ get_branch_len (0 : F) 1 b0 1 44 = 303 := by
  refine ⟨?_, ?_, ?_⟩ <;>
    simp [get_branch_len, one_rlp_byte, two_rlp_bytes, three_rlp_bytes] <;>
      ring_nf

/-- Witness for `get_branch_len_test_vectors` at concrete unused bytes. -/
theorem get_branch_len_test_vectors_witness :
    get_branch_len (1 : ZMod 101) 1 197 11 13 = 6
    ∧ get_branch_len (1 : ZMod 101) 0 7 10 13 = 12
    ∧ get_branch_len (0 : ZMod 101) 1 7 1 44 = 303 :=
  get_branch_len_test_vectors 7 11 13

/-- C9: for boolean flag values the three case selectors of
`get_branch_len` are pairwise mutually exclusive (the product of any two is
zero), and for `s1 = 0, s2 = 0` no form is selected: the function returns
`0`. -/
theorem branch_len_selectors_exclusive (s1 s2 b0 b1 b2 : F)
    (h1 : s1 = 0 ∨ s1 = 1) (h2 : s2 = 0 ∨ s2 = 1) :
    one_rlp_byte s1 s2 * two_rlp_bytes s1 s2 = 0
    ∧ one_rlp_byte s1 s2 * three_rlp_bytes s1 s2 = 0
    ∧ two_rlp_bytes s1 s2 * three_rlp_bytes s1 s2 = 0
    ∧ get_branch_len 0 0 b0 b1 b2 = 0 := by
  rcases h1 with h1 | h1 <;> rcases h2 with h2 | h2 <;> subst h1 <;> subst h2 <;>
    refine ⟨?_, ?_, ?_, ?_⟩ <;>
      simp [one_rlp_byte, two_rlp_bytes, three_rlp_bytes, get_branch_len]

/-- Witness for `branch_len_selectors_exclusive` at `s1 = 1`, `s2 = 0`. -/
theorem branch_len_selectors_exclusive_witness :
    one_rlp_byte (1 : ZMod 101) 0 * two_rlp_bytes 1 0 = 0
    ∧ one_rlp_byte (1 : ZMod 101) 0 * three_rlp_bytes 1 0 = 0
    ∧ two_rlp_bytes (1 : ZMod 101) 0 * three_rlp_bytes 1 0 = 0
    ∧ get_branch_len (0 : ZMod 101) 0 7 7 7 = 0 :=
  branch_len_selectors_exclusive 1 0 7 7 7 (Or.inr rfl) (Or.inl rfl)

/-- C8: `key_len_lookup` registers exactly one lookup, whose queried tuple is
the `RangeKeyLen256` tag together with
`q_enable * s * (key_len - len_offset - ind)`; in a field that second
component vanishes exactly when `q_enable = 0`, the byte value `s = 0`, or
`key_len - len_offset - ind = 0`. -/
theorem key_len_lookup_spec (q_enable s key_len : F) (ind len_offset : Nat) :
    (key_len_lookup q_enable s key_len ind len_offset).tag
        = FixedTableTag.RangeKeyLen256
    ∧ ((key_len_lookup q_enable s key_len ind len_offset).value = 0
        ↔ q_enable = 0 ∨ s = 0
          ∨ key_len - (len_offset : F) - (ind : F) = 0) := by
  refine ⟨rfl, ?_⟩
  simp [key_len_lookup, mul_eq_zero, or_assoc]

/-- Witness for `key_len_lookup_spec` at concrete arguments. -/
theorem key_len_lookup_spec_witness :
    (key_len_lookup (1 : ZMod 101) 2 9 3 1).tag = FixedTableTag.RangeKeyLen256
    ∧ ((key_len_lookup (1 : ZMod 101) 2 9 3 1).value = 0
        ↔ (1 : ZMod 101) = 0 ∨ (2 : ZMod 101) = 0
          ∨ (9 : ZMod 101) - ((1 : Nat) : ZMod 101) - ((3 : Nat) : ZMod 101) = 0) :=
  key_len_lookup_spec 1 2 9 3 1

/-- C7: the `is_not_hashed` cell of each variant is the strict-less-than
comparison of the variant's declared RLP list byte length against
`HASH_WIDTH = 32`: it is `1` exactly when the length is below `32` and `0`
otherwise. -/
theorem modext_is_not_hashed_spec (F : Type) [Field F] (n : Nat) :
    (modext_is_not_hashed F n = 1 ↔ n < 32)
    ∧ (modext_is_not_hashed F n = 0 ↔ ¬ n < 32) := by
  by_cases h : n < 32 <;>
    simp [modext_is_not_hashed, ltGadgetExpr, HASH_WIDTH, h]

/-- Witness for `modext_is_not_hashed_spec` at length `5`. -/
theorem modext_is_not_hashed_spec_witness :
    (modext_is_not_hashed (ZMod 101) 5 = 1 ↔ 5 < 32)
    ∧ (modext_is_not_hashed (ZMod 101) 5 = 0 ↔ ¬ 5 < 32) :=
  modext_is_not_hashed_spec (ZMod 101) 5

/-- C6: per variant, `ModExtensionGadget::assign` derives
`is_key_part_odd = true` exactly when the first key byte's high nibble is
`1`, and it aborts witness generation exactly when that byte is neither the
even marker `0x00` nor an odd marker `0x10 .. 0x1F`.  (Assignment is a pure
function of the byte, so equal inputs give equal outcomes by construction.) -/
theorem mod_ext_parity_spec (b : Nat) (hb : b < 256) :
    (mod_ext_first_key_byte_parity b = none
      ↔ ¬ (b = 0 ∨ (16 ≤ b ∧ b ≤ 31)))
    ∧ ∀ o, mod_ext_first_key_byte_parity b = some o →
        (o = true ↔ b >>> 4 = 1) := by
  have hs : b >>> 4 = b / 16 := by simp [Nat.shiftRight_eq_div_pow]
  by_cases h : b >>> 4 = 1
  · have hb2 : 16 ≤ b ∧ b ≤ 31 := by rw [hs] at h; omega
    have hlt : b < 32 := by omega
    constructor
    · simp [mod_ext_first_key_byte_parity, h, hlt]
      omega
    · intro o ho
      simp [mod_ext_first_key_byte_parity, h, hlt] at ho
      simp [← ho, h]
  · by_cases hz : b = 0
    · subst hz
      constructor
      · simp [mod_ext_first_key_byte_parity]
      · intro o ho
        simp [mod_ext_first_key_byte_parity] at ho
        simp [← ho]
    · have hb2 : ¬ (16 ≤ b ∧ b ≤ 31) := by rw [hs] at h; omega
      constructor
      · simp [mod_ext_first_key_byte_parity, h, hz]
        omega
      · intro o ho
        simp [mod_ext_first_key_byte_parity, h, hz] at ho

/-- Witness for `mod_ext_parity_spec` at the odd-marker byte `0x11 = 17`. -/
theorem mod_ext_parity_spec_witness :
    (mod_ext_first_key_byte_parity 17 = none
      ↔ ¬ (17 = 0 ∨ (16 ≤ 17 ∧ 17 ≤ 31)))
    ∧ ∀ o, mod_ext_first_key_byte_parity 17 = some o →
        (o = true ↔ 17 >>> 4 = 1) :=
  mod_ext_parity_spec 17 (by decide)

/-- C10: `into_words_expr` is defined on every input of length at least 32
and then returns exactly 4 word expressions; its result depends only on the
first 32 elements; and on any shorter input the indexing is out of bounds, so
the function is partial (modelled by `none`). -/
theorem into_words_expr_spec (hash : List F) :
    (32 ≤ hash.length →
      ∃ ws, into_words_expr hash = some ws ∧ ws.length = 4)
    ∧ into_words_expr hash = into_words_expr (hash.take 32)
    ∧ (hash.length < 32 → into_words_expr hash = none) := by
  refine ⟨?_, ?_, ?_⟩
  · intro h
    unfold into_words_expr
    rw [if_pos h]
    exact ⟨_, rfl, by simp⟩
  · by_cases h : 32 ≤ hash.length
    · have hlen : 32 ≤ (hash.take 32).length := by
        simp [List.length_take]
        omega
      unfold into_words_expr
      rw [if_pos h, if_pos hlen]
      congr 1
      refine List.map_congr_left ?_
      intro i hi
      have hi4 : i < 4 := List.mem_range.mp hi
      have hgd : ∀ j, j < 8 →
          (hash.take 32).getD (i * 8 + j) (0 : F) = hash.getD (i * 8 + j) 0 := by
        intro j hj
        have hlt : i * 8 + j < 32 := by omega
        simp [List.getD_eq_getElem?_getD, List.getElem?_take_of_lt hlt]
      simp only [show List.range 8 = [0, 1, 2, 3, 4, 5, 6, 7] from rfl,
        List.foldl_cons, List.foldl_nil]
      rw [hgd 0 (by omega), hgd 1 (by omega), hgd 2 (by omega),
        hgd 3 (by omega), hgd 4 (by omega), hgd 5 (by omega),
        hgd 6 (by omega), hgd 7 (by omega)]
    · have heq : hash.take 32 = hash := List.take_of_length_le (by omega)
      rw [heq]
  · intro h
    unfold into_words_expr
    rw [if_neg (by omega)]

/-- Witness for `into_words_expr_spec` on a 32-byte input. -/
theorem into_words_expr_spec_witness :
    ∃ ws, into_words_expr (List.replicate 32 (0 : ZMod 101)) = some ws
      ∧ ws.length = 4 :=
  (into_words_expr_spec (List.replicate 32 (0 : ZMod 101))).1 (by simp)

/-- C1: whenever the two variants' node RLCs differ, satisfaction of the
registered constraints forces the long path RLC (`key_rlc_before` extended by
the long variant's key nibbles) to equal the short path RLC
(`middle_key_rlc` extended by the short variant's key nibbles); when the two
node RLCs are equal, the continuity constraint is satisfied identically, so
no such equality is imposed. -/
theorem mod_extension_continuity_forced (F : Type) [Field F]
    (inp : ModExtInputs F) (keccak_table fixed_table : List (List F)) :
    ((∀ c ∈ mod_extension_constraints inp,
          Constraint.sat keccak_table fixed_table c) →
        inp.node_rlc_s ≠ inp.node_rlc_c →
        rlc_after_short inp = nibbles_rlc_long inp)
    ∧ (inp.node_rlc_s = inp.node_rlc_c →
        Constraint.sat keccak_table fixed_table (continuity_constraint inp)) := by
  constructor
  · intro hall hne
    have hmem : continuity_constraint inp ∈ mod_extension_constraints inp :=
      List.mem_append_right _ (List.mem_singleton_self _)
    have hsat : is_short_not_branch inp
        * (rlc_after_short inp - nibbles_rlc_long inp) = 0 :=
      hall _ hmem
    have hsub : is_short_not_branch inp ≠ 0 :=
      sub_ne_zero.mpr hne
    rcases mul_eq_zero.mp hsat with hc | hc
    · exact absurd hc hsub
    · exact sub_eq_zero.mp hc
  · intro he
    show is_short_not_branch inp
        * (rlc_after_short inp - nibbles_rlc_long inp) = 0
    simp [is_short_not_branch, he]

/-- Witness for `mod_extension_continuity_forced`: concrete inputs with
differing node RLCs whose registered constraints are all satisfied by the
given keccak and fixed tables. -/
theorem mod_extension_continuity_forced_witness :
    rlc_after_short c1WitnessInputs = nibbles_rlc_long c1WitnessInputs :=
  (mod_extension_continuity_forced (ZMod 101) c1WitnessInputs
      [[1, 1, 0, 0, 0], [1, 0, 0, 0, 0]] [[0, 0]]).1
    (by decide) (by decide)

/-- C3: when the two variants' node RLCs coincide, no anchoring constraint is
registered for the short variant's value side: the short variant's anchoring
list consists of exactly the two constraints guarded by
`is_short_not_branch` (the `elsex` branch registers nothing — no keccak
lookup, no inline-RLC equality), and with equal node RLCs all of them are
satisfied even against an empty keccak table and arbitrary parent values. -/
theorem mod_extension_short_plain_branch (F : Type) [Field F]
    (inp : ModExtInputs F) (fixed_table : List (List F))
    (h : inp.node_rlc_s = inp.node_rlc_c) :
    (anchoring_constraints inp 1).length = 2
    ∧ ∀ c ∈ anchoring_constraints inp 1,
        Constraint.sat [] fixed_table c := by
  have hz : is_short_not_branch inp = 0 := by
    simp [is_short_not_branch, h]
  constructor
  · simp [anchoring_constraints, if_neg (show (1 : Fin 2) ≠ 0 by decide)]
  · intro c hc
    simp [anchoring_constraints, if_neg (show (1 : Fin 2) ≠ 0 by decide)] at hc
    rcases hc with hc | hc <;> subst hc <;> simp [Constraint.sat, hz]

/-- Witness for `mod_extension_short_plain_branch` on concrete inputs with
equal node RLCs. -/
theorem mod_extension_short_plain_branch_witness :
    (anchoring_constraints c3WitnessInputs 1).length = 2
    ∧ ∀ c ∈ anchoring_constraints c3WitnessInputs 1,
        Constraint.sat [] [] c :=
  mod_extension_short_plain_branch (ZMod 101) c3WitnessInputs [] (by decide)

end MptCircuit
